import Mathlib

/-!
Shallow embedding of the Solana RPC connection manager
(`SolanaRpcManager` and its helpers) and proofs about its
health-classification, selection and retry logic.

Network effects are modelled by oracles passed explicitly:
a height oracle `heights : String → Option Nat` gives, for one refresh
cycle, the result of `getCurrentBlock` on each endpoint address
(`none` models a failed query, mirroring the `catch` returning `null`);
an operation oracle `op : Nat → Connection → Except String T` gives the
outcome of running the caller-supplied RPC method on a given attempt
against a given connection (an `Except.error` outcome absorbs both an
operation failure and a lost timeout race, which the source treats
identically in the retry loop); a randomness oracle `rand` supplies the
index draws of `Math.random`.
-/

namespace SolanaRpc

/-- Model of a `@solana/web3.js` `Connection`: identified by its RPC
endpoint address, as the manager only ever reads `rpcEndpoint` from it. -/
structure Connection where
  rpcEndpoint : String
deriving DecidableEq, Repr

/-- Model of `RpcManagerConfig`. Optional fields are `Option`s; the
merge with `DEFAULT_CONFIG` in the constructor is modelled by the caller
supplying the fully merged record. -/
structure RpcManagerConfig where
  defaultNetwork : String
  officialRpcEndpoint : String
  maxBlockDelay : Int
  healthCheckIntervalMs : Int
  defaultTimeoutMs : Int
  defaultMaxRetries : Int
  rpcHostsFilePath : Option String
  customRpcEndpoints : Option (List String)
  logLevel : Int
deriving DecidableEq, Repr

/-- Model of `DEFAULT_CONFIG` from the source. -/
def DEFAULT_CONFIG : RpcManagerConfig where
  defaultNetwork := "mainnet-beta"
  officialRpcEndpoint := "https://api.mainnet-beta.solana.com"
  maxBlockDelay := 30
  healthCheckIntervalMs := 5 * 60 * 1000
  defaultTimeoutMs := 30000
  defaultMaxRetries := 5
  rpcHostsFilePath := none
  customRpcEndpoints := none
  logLevel := 2

/-- The mutable fields of a `SolanaRpcManager` instance. The two
JavaScript `Map`s are modelled as association lists with JS `Map.set`
semantics (`mapSet` below); the timer handle is irrelevant to the
claims and omitted. -/
structure ManagerState where
  config : RpcManagerConfig
  allConnections : List (String × List Connection)
  healthyConnections : List (String × List Connection)
deriving DecidableEq, Repr

/-- JS `Map.set`: overwrite the entry for the key if present, otherwise
append a new entry (JS `Map` preserves insertion order). -/
def mapSet : List (String × List Connection) → String → List Connection →
    List (String × List Connection)
  | [], k, v => [(k, v)]
  | (k', v') :: rest, k, v =>
      if k' = k then (k, v) :: rest else (k', v') :: mapSet rest k v

/-- JS `map.get(network) || []` read of the healthy-connections map. -/
def healthyOf (st : ManagerState) (network : String) : List Connection :=
  (st.healthyConnections.lookup network).getD []

/-- JS `map.get(network) || []` read of the all-connections map. -/
def allOf (st : ManagerState) (network : String) : List Connection :=
  (st.allConnections.lookup network).getD []

/-- Model of the `SolanaRpcManager` constructor: both maps are
initialized with an empty list under the default network key. -/
def mkManager (config : RpcManagerConfig) : ManagerState where
  config := config
  allConnections := [(config.defaultNetwork, [])]
  healthyConnections := [(config.defaultNetwork, [])]

/-- Model of the host normalization in `loadRpcEndpoints`: a host from
the hosts file that does not start with `http` gets `http://` prefixed. -/
def normalizeHost (host : String) : String :=
  if host.startsWith "http" then host else "http://" ++ host

/-- Insert a string into an ordered duplicate-free accumulator, the way
JS `Set.add` extends insertion order. -/
def insertUnique (acc : List String) (x : String) : List String :=
  if x ∈ acc then acc else acc ++ [x]

/-- Model of `loadRpcEndpoints`: custom endpoints first, then the hosts
file entries (normalized), then the official endpoint, deduplicated in
insertion order exactly as the JS `Set` does. `fileHosts = none` models
a missing file path, a missing file, or a load failure. -/
def loadRpcEndpoints (config : RpcManagerConfig) (fileHosts : Option (List String)) :
    List String :=
  ((config.customRpcEndpoints.getD []) ++
    (fileHosts.getD []).map normalizeHost ++
    [config.officialRpcEndpoint]).foldl insertUnique []

/-- Model of `getCurrentBlock`: the height oracle already folds in the
`try`/`catch`, so a failed `getSlot` is `none`. -/
def getCurrentBlock (heights : String → Option Nat) (rpcEndpoint : String) : Option Nat :=
  heights rpcEndpoint

/-- The health test from the body of `updateHealthyConnections`:
`currentBlock !== null && officialBlock - currentBlock <= maxBlockDelay`.
The subtraction is over `Int`, as in JS, so an endpoint ahead of the
official one yields a negative delta. -/
def isHealthyEndpoint (heights : String → Option Nat) (officialBlock : Nat)
    (maxBlockDelay : Int) (c : Connection) : Bool :=
  match getCurrentBlock heights c.rpcEndpoint with
  | some currentBlock => decide ((officialBlock : Int) - (currentBlock : Int) ≤ maxBlockDelay)
  | none => false

/-- The `for (const [network, connections] of this.allConnections.entries())`
loop of `updateHealthyConnections`: for each network, replace its
healthy entry by the order-preserving filter of its connections. -/
def refreshNetworks (heights : String → Option Nat) (officialBlock : Nat)
    (maxBlockDelay : Int) :
    List (String × List Connection) → List (String × List Connection) →
    List (String × List Connection)
  | [], healthy => healthy
  | (network, connections) :: rest, healthy =>
      refreshNetworks heights officialBlock maxBlockDelay rest
        (mapSet healthy network
          (connections.filter (isHealthyEndpoint heights officialBlock maxBlockDelay)))

/-- Model of `updateHealthyConnections`. The guard `if (!officialBlock)`
is falsy both when the official query failed (`null`) and when it
returned `0`, and in both cases the whole cycle is skipped with the
state unchanged; errors are caught and logged, never rethrown. -/
def updateHealthyConnections (heights : String → Option Nat) (st : ManagerState) :
    ManagerState :=
  match getCurrentBlock heights st.config.officialRpcEndpoint with
  | none => st
  | some officialBlock =>
      if officialBlock = 0 then st
      else
        { st with
          healthyConnections :=
            refreshNetworks heights officialBlock st.config.maxBlockDelay
              st.allConnections st.healthyConnections }

/-- Model of `initialize` (minus the timer start, which only schedules
later `updateHealthyConnections` calls): load the endpoint list, fall
back to the official endpoint if it is empty, build connections, store
them under the default network, and run one health check. -/
def initializeManager (fileHosts : Option (List String)) (heights : String → Option Nat)
    (st : ManagerState) : ManagerState :=
  let endpoints := loadRpcEndpoints st.config fileHosts
  let endpoints := if endpoints.length = 0 then [st.config.officialRpcEndpoint] else endpoints
  let connections := endpoints.map Connection.mk
  updateHealthyConnections heights
    { st with
      allConnections := mapSet st.allConnections st.config.defaultNetwork connections }

/-- Model of `getConnection`. The draw `Math.floor(Math.random() * n)`
is modelled by `rand % n`, which ranges over exactly the indices `0..n-1`.
The declared return type of the source is `Connection | null`, modelled
as `Option Connection`; every branch of the body returns a connection. -/
def getConnection (st : ManagerState) (network : String) (rand : Nat) :
    Option Connection :=
  let connections := healthyOf st network
  if connections.length = 0 then
    let allNetworkConnections := allOf st network
    if allNetworkConnections.length > 0 then
      some (allNetworkConnections.getD (rand % allNetworkConnections.length) ⟨""⟩)
    else
      some ⟨st.config.officialRpcEndpoint⟩
  else
    some (connections.getD (rand % connections.length) ⟨""⟩)

/-- The distinguishable failure outcomes of `executeWithRetry`. -/
inductive RpcFailure where
  | noAvailableConnections (network : String)
  | attemptFailure (message : String)
  | genericRetryFailure
deriving DecidableEq, Repr

/-- Observable outcome of one `executeWithRetry` call: the returned or
thrown value, how many times the RPC method was invoked, and how many
times an endpoint was selected. -/
structure RetryOutcome (T : Type) where
  result : Except RpcFailure T
  opCalls : Nat
  selectCalls : Nat
deriving Repr

/-- One step structure of the `while (attempt < maxRetries)` loop of
`executeWithRetry`, with explicit fuel equal to the number of loop
iterations still permitted, `(maxRetries - attempt).toNat`: the source
loop runs another iteration exactly when `attempt < maxRetries`, i.e.
when the fuel is non-zero. `attempt` counts completed failing attempts,
as in the source; the timeout race is folded into the attempt oracle
`op`, whose `error` outcome covers both an operation rejection and a
timeout. Fuel 0 is the loop exit: throw the last recorded failure, or
the generic `RPC call failed after multiple retries` error if none was
recorded. -/
def retryGo {T : Type} (st : ManagerState) (network : String)
    (op : Nat → Connection → Except String T) (rands : Nat → Nat) :
    Nat → Nat → Option String → RetryOutcome T
  | 0, attempt, lastError =>
      ⟨Except.error
        (match lastError with
         | some e => RpcFailure.attemptFailure e
         | none => RpcFailure.genericRetryFailure),
       attempt, attempt⟩
  | fuel + 1, attempt, _lastError =>
      match getConnection st network (rands attempt) with
      | none =>
          ⟨Except.error (RpcFailure.noAvailableConnections network), attempt, attempt + 1⟩
      | some connection =>
          match op attempt connection with
          | Except.ok result => ⟨Except.ok result, attempt + 1, attempt + 1⟩
          | Except.error e => retryGo st network op rands fuel (attempt + 1) (some e)

/-- The retry loop entered at a given attempt counter: the remaining
iteration budget of `while (attempt < maxRetries)` is
`(maxRetries - attempt).toNat`. -/
def retryLoop {T : Type} (st : ManagerState) (network : String)
    (op : Nat → Connection → Except String T) (rands : Nat → Nat)
    (maxRetries : Int) (attempt : Nat) (lastError : Option String) : RetryOutcome T :=
  retryGo st network op rands (maxRetries - (attempt : Int)).toNat attempt lastError

/-- Model of the options object of `executeWithRetry`; absent fields
default to the configured values. -/
structure ExecuteOptions where
  network : Option String
  maxRetries : Option Int
  timeoutMs : Option Int
  forceHealthCheck : Bool
deriving Repr

/-- Model of `executeWithRetry`: resolve defaulted options, optionally
run a health check first, then run the bounded retry loop starting at
attempt 0 with no recorded error. -/
def executeWithRetry {T : Type} (st : ManagerState) (heights : String → Option Nat)
    (op : Nat → Connection → Except String T) (rand : Nat → Nat)
    (opts : ExecuteOptions) : RetryOutcome T :=
  let network := opts.network.getD st.config.defaultNetwork
  let maxRetries := opts.maxRetries.getD st.config.defaultMaxRetries
  let st1 := if opts.forceHealthCheck then updateHealthyConnections heights st else st
  retryLoop st1 network op rand maxRetries 0 none

/-- States reachable through the manager lifecycle: construction,
the one-time `initialize`, and any number of refresh cycles. -/
inductive Reachable : ManagerState → Prop where
  | constructed (cfg : RpcManagerConfig) : Reachable (mkManager cfg)
  | initialized (cfg : RpcManagerConfig) (fileHosts : Option (List String))
      (heights : String → Option Nat) :
      Reachable (initializeManager fileHosts heights (mkManager cfg))
  | refreshed (st : ManagerState) (heights : String → Option Nat) :
      Reachable st → Reachable (updateHealthyConnections heights st)

/-! ### Association-map lemmas -/

theorem lookup_cons_self (k : String) (v : List Connection)
    (l : List (String × List Connection)) :
    List.lookup k ((k, v) :: l) = some v := by
  simp [List.lookup]

theorem lookup_cons_ne (k k' : String) (v : List Connection)
    (l : List (String × List Connection)) (h : ¬k' = k) :
    List.lookup k' ((k, v) :: l) = List.lookup k' l := by
  simp [List.lookup, beq_false_of_ne h]

theorem lookup_mapSet (m : List (String × List Connection)) (k k' : String)
    (v : List Connection) :
    (mapSet m k v).lookup k' = if k' = k then some v else m.lookup k' := by
  induction m with
  | nil =>
    by_cases h : k' = k
    · subst h; simp [mapSet, lookup_cons_self]
    · rw [show mapSet ([] : List (String × List Connection)) k v = [(k, v)] from rfl,
        lookup_cons_ne _ _ _ _ h, if_neg h]
  | cons p rest ih =>
    obtain ⟨k₀, v₀⟩ := p
    by_cases h0 : k₀ = k
    · subst h0
      by_cases h : k' = k₀
      · subst h
        simp [mapSet, lookup_cons_self]
      · simp [mapSet, lookup_cons_ne _ _ _ _ h, h]
    · by_cases h : k' = k₀
      · subst h
        have hk : ¬(k' = k) := h0
        simp [mapSet, h0, lookup_cons_self, hk]
      · simp [mapSet, h0, lookup_cons_ne _ _ _ _ h, ih]

theorem notMem_keys_of_lookup_none (m : List (String × List Connection)) (k : String)
    (h : m.lookup k = none) : k ∉ m.map Prod.fst := by
  induction m with
  | nil => simp
  | cons p rest ih =>
    obtain ⟨k₀, v₀⟩ := p
    by_cases hk : k = k₀
    · subst hk
      rw [lookup_cons_self] at h
      exact absurd h (by simp)
    · rw [lookup_cons_ne _ _ _ _ hk] at h
      simpa [hk] using ih h

theorem keys_mapSet_subset (m : List (String × List Connection)) (k : String)
    (v : List Connection) (x : String) (h : x ∈ (mapSet m k v).map Prod.fst) :
    x ∈ m.map Prod.fst ∨ x = k := by
  induction m with
  | nil => simpa [mapSet] using h
  | cons p rest ih =>
    obtain ⟨k₀, v₀⟩ := p
    by_cases h0 : k₀ = k
    · subst h0
      simp [mapSet] at h ⊢
      tauto
    · simp only [mapSet, if_neg h0, List.map_cons, List.mem_cons] at h ⊢
      rcases h with rfl | h
      · exact Or.inl (Or.inl rfl)
      · rcases ih h with hin | rfl
        · exact Or.inl (Or.inr hin)
        · exact Or.inr rfl

theorem nodup_keys_mapSet (m : List (String × List Connection)) (k : String)
    (v : List Connection) (h : (m.map Prod.fst).Nodup) :
    ((mapSet m k v).map Prod.fst).Nodup := by
  induction m with
  | nil => simp [mapSet]
  | cons p rest ih =>
    obtain ⟨k₀, v₀⟩ := p
    simp only [List.map_cons, List.nodup_cons] at h
    by_cases h0 : k₀ = k
    · subst h0; simpa [mapSet] using h
    · simp only [mapSet, if_neg h0, List.map_cons, List.nodup_cons]
      refine ⟨?_, ih h.2⟩
      intro hmem
      rcases keys_mapSet_subset rest k v _ hmem with hin | rfl
      · exact h.1 hin
      · exact h0 rfl

theorem refreshNetworks_lookup_notMem (heights : String → Option Nat) (H : Nat) (d : Int)
    (entries healthy : List (String × List Connection)) (network : String)
    (h : network ∉ entries.map Prod.fst) :
    (refreshNetworks heights H d entries healthy).lookup network = healthy.lookup network := by
  induction entries generalizing healthy with
  | nil => rfl
  | cons p rest ih =>
    obtain ⟨k, cs⟩ := p
    simp only [List.map_cons, List.mem_cons, not_or] at h
    rw [refreshNetworks, ih _ h.2, lookup_mapSet, if_neg h.1]

theorem refreshNetworks_lookup_nodup (heights : String → Option Nat) (H : Nat) (d : Int)
    (entries healthy : List (String × List Connection)) (network : String)
    (conns : List Connection)
    (hnd : (entries.map Prod.fst).Nodup)
    (hlk : entries.lookup network = some conns) :
    (refreshNetworks heights H d entries healthy).lookup network
      = some (conns.filter (isHealthyEndpoint heights H d)) := by
  induction entries generalizing healthy with
  | nil => simp [List.lookup] at hlk
  | cons p rest ih =>
    obtain ⟨k, cs⟩ := p
    simp only [List.map_cons, List.nodup_cons] at hnd
    by_cases hk : network = k
    · subst hk
      rw [lookup_cons_self] at hlk
      obtain rfl : cs = conns := Option.some.inj hlk
      rw [refreshNetworks,
        refreshNetworks_lookup_notMem heights H d rest _ network hnd.1,
        lookup_mapSet, if_pos rfl]
    · have hlk' : rest.lookup network = some conns := by
        rw [lookup_cons_ne _ _ _ _ hk] at hlk
        exact hlk
      rw [refreshNetworks]
      exact ih _ hnd.2 hlk'

/-! ### Concrete fixtures used by witnesses and counterexamples -/

/-- A configuration with a distinguishable reference endpoint and the
default `maxBlockDelay` of 30. -/
def cfgB : RpcManagerConfig :=
  { DEFAULT_CONFIG with officialRpcEndpoint := "https://official.example" }

/-- Healthy at delta 30 under `heightsB`. -/
def connA : Connection := ⟨"https://a.example"⟩

/-- Unhealthy at delta 31 under `heightsB`. -/
def connB : Connection := ⟨"https://b.example"⟩

/-- Healthy at delta -30 (ahead of the reference) under `heightsB`. -/
def connC : Connection := ⟨"https://c.example"⟩

/-- Unreachable (failed height query) under `heightsB`. -/
def connD : Connection := ⟨"https://d.example"⟩

/-- A manager state with four configured endpoints and an empty healthy
list on the default network. -/
def stB : ManagerState where
  config := cfgB
  allConnections := [("mainnet-beta", [connA, connB, connC, connD])]
  healthyConnections := [("mainnet-beta", [])]

/-- A manager state whose healthy list is non-empty. -/
def stA : ManagerState where
  config := cfgB
  allConnections := [("mainnet-beta", [connA, connB, connC, connD])]
  healthyConnections := [("mainnet-beta", [connA, connC])]

/-- Height oracle: reference at 100, `connA` at 70 (delta 30), `connB`
at 69 (delta 31), `connC` at 130 (delta -30), everything else failed. -/
def heightsB : String → Option Nat := fun e =>
  if e = "https://official.example" then some 100
  else if e = "https://a.example" then some 70
  else if e = "https://b.example" then some 69
  else if e = "https://c.example" then some 130
  else none

/-- Height oracle where every query fails. -/
def heightsDown : String → Option Nat := fun _ => none

/-- Height oracle where every query succeeds with height 0. -/
def heightsZero : String → Option Nat := fun _ => some 0

/-! ### C2: reference-endpoint failure aborts the refresh cycle -/

/-- C2: if the reference endpoint's tip-height query fails during a
refresh cycle, `updateHealthyConnections` leaves the whole manager
state (in particular every network's healthy subset) unchanged, and
returns normally rather than propagating an error. -/
theorem updateHealthy_official_failure_noop (st : ManagerState)
    (heights : String → Option Nat)
    (h : getCurrentBlock heights st.config.officialRpcEndpoint = none) :
    updateHealthyConnections heights st = st := by
  unfold updateHealthyConnections
  rw [h]

/-- Witness for C2 at a concrete state with a non-empty healthy list
and an all-failing height oracle. -/
theorem updateHealthy_official_failure_noop_witness :
    getCurrentBlock heightsDown stA.config.officialRpcEndpoint = none ∧
    updateHealthyConnections heightsDown stA = stA :=
  ⟨rfl, updateHealthy_official_failure_noop stA heightsDown rfl⟩

/-! ### C9: a reference height of 0 is treated like a failure -/

/-- C9: if the reference endpoint's tip-height query succeeds but
reports height 0, the guard `if (!officialBlock)` is falsy and the
whole refresh cycle is skipped with every healthy subset unchanged,
exactly as for an unreachable reference. -/
theorem updateHealthy_zero_official_noop (st : ManagerState)
    (heights : String → Option Nat)
    (h : getCurrentBlock heights st.config.officialRpcEndpoint = some 0) :
    updateHealthyConnections heights st = st := by
  unfold updateHealthyConnections
  rw [h]
  rfl

/-- Witness for C9 at a concrete state with a non-empty healthy list
and an oracle reporting height 0 everywhere. -/
theorem updateHealthy_zero_official_noop_witness :
    getCurrentBlock heightsZero stA.config.officialRpcEndpoint = some 0 ∧
    updateHealthyConnections heightsZero stA = stA :=
  ⟨rfl, updateHealthy_zero_official_noop stA heightsZero rfl⟩

/-! ### C1: the healthy list is the order-preserving delta filter -/

/-- Counterexample to C1 as stated: the reference query succeeds with
height `H = 0`, every endpoint reports height 0 (so the claimed filter
would keep `connA, connB, connC`, and `connD` too — delta 0 throughout
— here all four), yet the cycle is skipped and the healthy list stays
`[]`, not the filter. -/
theorem updateHealthy_zero_official_not_filter :
    getCurrentBlock heightsZero stB.config.officialRpcEndpoint = some 0 ∧
    ([connA, connB, connC, connD].filter
        (isHealthyEndpoint heightsZero 0 stB.config.maxBlockDelay))
      = [connA, connB, connC, connD] ∧
    stB.allConnections.lookup "mainnet-beta" = some [connA, connB, connC, connD] ∧
    (updateHealthyConnections heightsZero stB).healthyConnections.lookup "mainnet-beta"
      ≠ some ([connA, connB, connC, connD].filter
          (isHealthyEndpoint heightsZero 0 stB.config.maxBlockDelay)) := by
  refine ⟨rfl, by decide, rfl, ?_⟩
  intro h
  have h' : (some [] : Option (List Connection))
      = some [connA, connB, connC, connD] := by
    calc (some [] : Option (List Connection))
        = (updateHealthyConnections heightsZero stB).healthyConnections.lookup
            "mainnet-beta" := rfl
      _ = some ([connA, connB, connC, connD].filter
            (isHealthyEndpoint heightsZero 0 stB.config.maxBlockDelay)) := h
      _ = some [connA, connB, connC, connD] := by decide
  exact absurd (Option.some.inj h') (by decide)

/-- C1 (amended): after a refresh cycle in which the reference query
succeeds with a nonzero height `H`, the healthy list of every
configured network equals the order-preserving filter of its
`allConnections` entry keeping exactly the endpoints whose own height
query succeeded with height `h` and `H - h ≤ maxBlockDelay` — so delta
exactly `maxBlockDelay` is healthy, delta `maxBlockDelay + 1` is not,
a negative delta is healthy, and a failed query is unhealthy. -/
theorem updateHealthy_filters_when_official_positive (st : ManagerState)
    (heights : String → Option Nat) (officialBlock : Nat)
    (hH : getCurrentBlock heights st.config.officialRpcEndpoint = some officialBlock)
    (hpos : officialBlock ≠ 0)
    (hnd : (st.allConnections.map Prod.fst).Nodup)
    (network : String) (conns : List Connection)
    (hlk : st.allConnections.lookup network = some conns) :
    (updateHealthyConnections heights st).healthyConnections.lookup network
      = some (conns.filter
          (isHealthyEndpoint heights officialBlock st.config.maxBlockDelay)) := by
  unfold updateHealthyConnections
  rw [hH]
  dsimp only
  rw [if_neg hpos]
  exact refreshNetworks_lookup_nodup heights officialBlock st.config.maxBlockDelay
    st.allConnections st.healthyConnections network conns hnd hlk

/-- Witness for C1 at the boundary data: reference height 100,
deltas 30 (healthy), 31 (unhealthy), -30 (healthy) and a failed query
(unhealthy); the resulting healthy list is `[connA, connC]` in the
original order. -/
theorem updateHealthy_filters_witness :
    getCurrentBlock heightsB stB.config.officialRpcEndpoint = some 100 ∧
    (100 : Nat) ≠ 0 ∧
    (stB.allConnections.map Prod.fst).Nodup ∧
    stB.allConnections.lookup "mainnet-beta" = some [connA, connB, connC, connD] ∧
    (updateHealthyConnections heightsB stB).healthyConnections.lookup "mainnet-beta"
      = some ([connA, connB, connC, connD].filter
          (isHealthyEndpoint heightsB 100 stB.config.maxBlockDelay)) ∧
    ([connA, connB, connC, connD].filter
        (isHealthyEndpoint heightsB 100 stB.config.maxBlockDelay))
      = [connA, connC] :=
  ⟨rfl, by decide, by decide, rfl,
   updateHealthy_filters_when_official_positive stB heightsB 100 rfl (by decide)
     (by decide) "mainnet-beta" [connA, connB, connC, connD] rfl,
   by decide⟩

/-! ### C7: the initial endpoint list -/

/-- Membership in `insertUnique`. -/
theorem mem_insertUnique (acc : List String) (y x : String) :
    x ∈ insertUnique acc y ↔ x ∈ acc ∨ x = y := by
  unfold insertUnique
  by_cases h : y ∈ acc
  · simp only [if_pos h]
    constructor
    · exact Or.inl
    · rintro (hx | rfl)
      · exact hx
      · exact h
  · simp [if_neg h]

/-- Membership in a fold of `insertUnique`. -/
theorem mem_foldl_insertUnique (l : List String) (acc : List String) (x : String) :
    x ∈ l.foldl insertUnique acc ↔ x ∈ acc ∨ x ∈ l := by
  induction l generalizing acc with
  | nil => simp
  | cons y t ih =>
    rw [List.foldl_cons, ih, mem_insertUnique]
    simp only [List.mem_cons]
    tauto

/-- `insertUnique` preserves freedom from duplicates. -/
theorem nodup_insertUnique (acc : List String) (y : String) (h : acc.Nodup) :
    (insertUnique acc y).Nodup := by
  unfold insertUnique
  by_cases hy : y ∈ acc
  · simpa [if_pos hy] using h
  · rw [if_neg hy]
    simpa [List.nodup_append, hy] using h

/-- A fold of `insertUnique` over a duplicate-free accumulator is
duplicate-free. -/
theorem nodup_foldl_insertUnique (l : List String) (acc : List String) (h : acc.Nodup) :
    (l.foldl insertUnique acc).Nodup := by
  induction l generalizing acc with
  | nil => exact h
  | cons y t ih => exact ih _ (nodup_insertUnique _ _ h)

/-- C7: the initial endpoint list is duplicate-free, always contains
the reference endpoint address, and contains exactly the strings in
the union of the custom list, the scheme-normalized hosts-file entries,
and the reference endpoint address, compared by exact string match
after normalization. -/
theorem loadRpcEndpoints_union (config : RpcManagerConfig)
    (fileHosts : Option (List String)) :
    (loadRpcEndpoints config fileHosts).Nodup ∧
    config.officialRpcEndpoint ∈ loadRpcEndpoints config fileHosts ∧
    ∀ x : String, x ∈ loadRpcEndpoints config fileHosts ↔
      (x ∈ config.customRpcEndpoints.getD [] ∨
       x ∈ (fileHosts.getD []).map normalizeHost ∨
       x = config.officialRpcEndpoint) := by
  refine ⟨nodup_foldl_insertUnique _ _ List.nodup_nil, ?_, ?_⟩
  · rw [loadRpcEndpoints, mem_foldl_insertUnique]
    simp
  · intro x
    rw [loadRpcEndpoints, mem_foldl_insertUnique]
    simp [or_assoc]

/-! ### C3 and C8: connection selection -/

theorem getD_mod_mem (l : List Connection) (r : Nat) (h : l ≠ []) :
    l.getD (r % l.length) ⟨""⟩ ∈ l := by
  have hlen : 0 < l.length := List.length_pos.mpr h
  have hlt : r % l.length < l.length := Nat.mod_lt _ hlen
  rw [List.getD_eq_getElem?_getD, List.getElem?_eq_getElem hlt]
  exact List.getElem_mem hlt

/-- C3: `getConnection` follows the three-tier policy: a member of the
healthy subset when it is non-empty; otherwise a member of the full
configured list when that is non-empty; otherwise a freshly constructed
connection to the reference endpoint — never `none`. -/
theorem getConnection_three_tier (st : ManagerState) (network : String) (rand : Nat) :
    (healthyOf st network ≠ [] →
      ∃ c, c ∈ healthyOf st network ∧ getConnection st network rand = some c) ∧
    (healthyOf st network = [] → allOf st network ≠ [] →
      ∃ c, c ∈ allOf st network ∧ getConnection st network rand = some c) ∧
    (healthyOf st network = [] → allOf st network = [] →
      getConnection st network rand = some ⟨st.config.officialRpcEndpoint⟩) := by
  refine ⟨?_, ?_, ?_⟩
  · intro h
    refine ⟨(healthyOf st network).getD (rand % (healthyOf st network).length) ⟨""⟩,
      getD_mod_mem _ _ h, ?_⟩
    simp only [getConnection]
    rw [if_neg (fun hc => h (List.length_eq_zero.mp hc))]
  · intro h h2
    refine ⟨(allOf st network).getD (rand % (allOf st network).length) ⟨""⟩,
      getD_mod_mem _ _ h2, ?_⟩
    simp only [getConnection]
    rw [if_pos (by rw [h]; rfl), if_pos (List.length_pos.mpr h2)]
  · intro h h2
    simp only [getConnection]
    rw [if_pos (by rw [h]; rfl), if_neg (by rw [h2]; simp)]

/-- A concrete state used to exercise the unknown-network tier. -/
def stEmpty : ManagerState where
  config := cfgB
  allConnections := [("mainnet-beta", [connA])]
  healthyConnections := [("mainnet-beta", [connA])]

/-- Witness for C3: tier 1 on a non-empty healthy subset, tier 2 on an
all-unhealthy-but-configured network, tier 3 on an unknown network. -/
theorem getConnection_three_tier_witness :
    (healthyOf stA "mainnet-beta" ≠ [] ∧
      ∃ c, c ∈ healthyOf stA "mainnet-beta" ∧
        getConnection stA "mainnet-beta" 5 = some c) ∧
    (healthyOf stB "mainnet-beta" = [] ∧ allOf stB "mainnet-beta" ≠ [] ∧
      ∃ c, c ∈ allOf stB "mainnet-beta" ∧
        getConnection stB "mainnet-beta" 5 = some c) ∧
    (healthyOf stEmpty "devnet" = [] ∧ allOf stEmpty "devnet" = [] ∧
      getConnection stEmpty "devnet" 5
        = some ⟨stEmpty.config.officialRpcEndpoint⟩) :=
  ⟨⟨by decide, (getConnection_three_tier stA "mainnet-beta" 5).1 (by decide)⟩,
   ⟨by decide, by decide,
    (getConnection_three_tier stB "mainnet-beta" 5).2.1 (by decide) (by decide)⟩,
   ⟨by decide, by decide,
    (getConnection_three_tier stEmpty "devnet" 5).2.2 (by decide) (by decide)⟩⟩

theorem getConnection_isSome (st : ManagerState) (network : String) (rand : Nat) :
    (getConnection st network rand).isSome := by
  simp only [getConnection]
  by_cases h1 : (healthyOf st network).length = 0
  · by_cases h2 : (allOf st network).length > 0 <;> simp [h1, h2]
  · simp [h1]

/-- The connection selected on attempt `k`; well-defined because
`getConnection` never returns `none`. -/
def connAt (st : ManagerState) (network : String) (rands : Nat → Nat) (k : Nat) :
    Connection :=
  (getConnection st network (rands k)).getD ⟨""⟩

theorem getConnection_eq_connAt (st : ManagerState) (network : String)
    (rands : Nat → Nat) (k : Nat) :
    getConnection st network (rands k) = some (connAt st network rands k) := by
  unfold connAt
  cases hc : getConnection st network (rands k) with
  | none =>
    exact absurd (getConnection_isSome st network (rands k)) (by rw [hc]; simp)
  | some c => rfl

theorem retryGo_ne_noAvailable {T : Type} (st : ManagerState) (network : String)
    (op : Nat → Connection → Except String T) (rands : Nat → Nat) :
    ∀ (fuel attempt : Nat) (lastError : Option String) (n : String),
      (retryGo st network op rands fuel attempt lastError).result
        ≠ Except.error (RpcFailure.noAvailableConnections n) := by
  intro fuel
  induction fuel with
  | zero =>
    intro attempt lastError n
    cases lastError <;> simp [retryGo]
  | succ k ih =>
    intro attempt lastError n
    rw [retryGo, getConnection_eq_connAt st network rands attempt]
    cases hop : op attempt (connAt st network rands attempt) with
    | ok v => simp [hop]
    | error e =>
      simp only [hop]
      exact ih (attempt + 1) (some e) n

/-- C8: `getConnection` never returns `null` for any network string and
any manager state, and consequently the `No available RPC connections`
error branch of `executeWithRetry` can never be the outcome of a call. -/
theorem getConnection_never_none {T : Type} (st : ManagerState)
    (heights : String → Option Nat) (op : Nat → Connection → Except String T)
    (rand : Nat) (rands : Nat → Nat) (opts : ExecuteOptions) (network : String) :
    (getConnection st network rand).isSome = true ∧
    ∀ n : String,
      (executeWithRetry st heights op rands opts).result
        ≠ Except.error (RpcFailure.noAvailableConnections n) := by
  refine ⟨getConnection_isSome st network rand, ?_⟩
  intro n
  unfold executeWithRetry retryLoop
  exact retryGo_ne_noAvailable _ _ op rands _ 0 none n

/-! ### C5: the healthy subset is always a subset of `allConnections` -/

/-- The inductive invariant: network keys of `allConnections` are
duplicate-free, and every healthy connection of every network is one of
that network's configured connections. -/
def managerInv (st : ManagerState) : Prop :=
  (st.allConnections.map Prod.fst).Nodup ∧
  ∀ network : String, ∀ c ∈ healthyOf st network, c ∈ allOf st network

theorem lookup_single_empty (d network : String) :
    (List.lookup network [(d, ([] : List Connection))]).getD [] = [] := by
  by_cases h : network = d
  · subst h
    rw [lookup_cons_self]
    rfl
  · rw [lookup_cons_ne _ _ _ _ h]
    rfl

theorem managerInv_mkManager (cfg : RpcManagerConfig) : managerInv (mkManager cfg) := by
  refine ⟨by simp [mkManager], ?_⟩
  intro network c hc
  rw [show healthyOf (mkManager cfg) network
      = (List.lookup network [(cfg.defaultNetwork, ([] : List Connection))]).getD []
    from rfl, lookup_single_empty] at hc
  exact absurd hc (List.not_mem_nil c)

/-- Exhaustive description of one refresh cycle: either it is skipped
with the state unchanged, or the reference reported a nonzero height
and the healthy map is rebuilt by `refreshNetworks`. -/
theorem updateHC_cases (st : ManagerState) (heights : String → Option Nat) :
    updateHealthyConnections heights st = st ∨
    ∃ H : Nat, H ≠ 0 ∧
      getCurrentBlock heights st.config.officialRpcEndpoint = some H ∧
      updateHealthyConnections heights st =
        { st with
          healthyConnections :=
            refreshNetworks heights H st.config.maxBlockDelay
              st.allConnections st.healthyConnections } := by
  unfold updateHealthyConnections
  cases hH : getCurrentBlock heights st.config.officialRpcEndpoint with
  | none => exact Or.inl rfl
  | some H =>
    dsimp only
    by_cases h0 : H = 0
    · subst h0
      rw [if_pos rfl]
      exact Or.inl rfl
    · rw [if_neg h0]
      exact Or.inr ⟨H, h0, rfl, rfl⟩

theorem managerInv_update (st : ManagerState) (heights : String → Option Nat)
    (h : managerInv st) : managerInv (updateHealthyConnections heights st) := by
  rcases updateHC_cases st heights with heq | ⟨H, h0, hH, heq⟩
  · rw [heq]; exact h
  · rw [heq]
    refine ⟨h.1, ?_⟩
    intro network c hc
    unfold healthyOf at hc
    dsimp only at hc
    cases hlk : st.allConnections.lookup network with
    | some conns =>
      rw [refreshNetworks_lookup_nodup heights H st.config.maxBlockDelay
        st.allConnections st.healthyConnections network conns h.1 hlk] at hc
      simp only [Option.getD_some] at hc
      have hcc : c ∈ conns := List.mem_of_mem_filter hc
      unfold allOf
      dsimp only
      rw [hlk]
      simpa using hcc
    | none =>
      have hnm := notMem_keys_of_lookup_none st.allConnections network hlk
      rw [refreshNetworks_lookup_notMem heights H st.config.maxBlockDelay
        st.allConnections st.healthyConnections network hnm] at hc
      have hmem := h.2 network c hc
      unfold allOf at hmem ⊢
      dsimp only
      exact hmem

theorem managerInv_of_healthy_single_empty (st : ManagerState) (d : String)
    (hh : st.healthyConnections = [(d, [])])
    (hnd : (st.allConnections.map Prod.fst).Nodup) : managerInv st := by
  refine ⟨hnd, ?_⟩
  intro network c hc
  unfold healthyOf at hc
  rw [hh, lookup_single_empty] at hc
  exact absurd hc (List.not_mem_nil c)

theorem managerInv_initialize (cfg : RpcManagerConfig)
    (fileHosts : Option (List String)) (heights : String → Option Nat) :
    managerInv (initializeManager fileHosts heights (mkManager cfg)) := by
  unfold initializeManager
  dsimp only
  apply managerInv_update
  apply managerInv_of_healthy_single_empty _ cfg.defaultNetwork rfl
  apply nodup_keys_mapSet
  simp [mkManager]

/-- C5: at every state reachable through the manager lifecycle
(construction, `initialize`, any number of refresh cycles), the healthy
subset of every network is a subset of that network's configured
connections by endpoint address. -/
theorem reachable_healthy_subset_of_all (st : ManagerState) (h : Reachable st) :
    ∀ network : String, ∀ c ∈ healthyOf st network,
      c.rpcEndpoint ∈ (allOf st network).map Connection.rpcEndpoint := by
  have key : managerInv st := by
    induction h with
    | constructed cfg => exact managerInv_mkManager cfg
    | initialized cfg fileHosts heights => exact managerInv_initialize cfg fileHosts heights
    | refreshed st' heights _ ih => exact managerInv_update st' heights ih
  intro network c hc
  exact List.mem_map_of_mem _ (key.2 network c hc)

/-- A reachable state with a non-empty healthy subset: a fresh manager
on `cfgB`, initialized with no hosts file under the `heightsB` oracle. -/
def stW : ManagerState := initializeManager none heightsB (mkManager cfgB)

/-- Witness for C5 at `stW`, where the official endpoint is healthy. -/
theorem reachable_healthy_subset_witness :
    Reachable stW ∧
    Connection.mk "https://official.example" ∈ healthyOf stW "mainnet-beta" ∧
    (Connection.mk "https://official.example").rpcEndpoint
      ∈ (allOf stW "mainnet-beta").map Connection.rpcEndpoint :=
  ⟨Reachable.initialized cfgB none heightsB,
   by decide,
   reachable_healthy_subset_of_all stW (Reachable.initialized cfgB none heightsB)
     "mainnet-beta" (Connection.mk "https://official.example") (by decide)⟩

/-! ### C4, C6, C10: the retry executor -/

theorem retryGo_all_fail {T : Type} (st : ManagerState) (network : String)
    (op : Nat → Connection → Except String T) (rands : Nat → Nat)
    (errOf : Nat → Connection → String)
    (hfail : ∀ k c, op k c = Except.error (errOf k c)) :
    ∀ (fuel attempt : Nat) (lastError : Option String), 0 < fuel →
      retryGo st network op rands fuel attempt lastError =
        ⟨Except.error (RpcFailure.attemptFailure
            (errOf (attempt + fuel - 1) (connAt st network rands (attempt + fuel - 1)))),
         attempt + fuel, attempt + fuel⟩ := by
  intro fuel
  induction fuel with
  | zero => intro attempt lastError h; omega
  | succ k ih =>
    intro attempt lastError _hpos
    rw [retryGo, getConnection_eq_connAt st network rands attempt]
    dsimp only
    rw [hfail attempt (connAt st network rands attempt)]
    dsimp only
    by_cases hk : 0 < k
    · rw [ih (attempt + 1) (some (errOf attempt (connAt st network rands attempt))) hk]
      have h1 : attempt + 1 + k - 1 = attempt + (k + 1) - 1 := by omega
      have h2 : attempt + 1 + k = attempt + (k + 1) := by omega
      rw [h1, h2]
    · have hk0 : k = 0 := by omega
      subst hk0
      rw [retryGo]
      simp

/-- C4: with a positive retry budget `n` and an operation that fails on
every attempt, `executeWithRetry` performs exactly `n` attempts (not
`n + 1`) and then fails with the failure recorded on the last attempt,
attempt number `n - 1` (0-based), wrapped as the thrown error. -/
theorem executeWithRetry_exhausts_attempts {T : Type} (st : ManagerState)
    (heights : String → Option Nat) (op : Nat → Connection → Except String T)
    (errOf : Nat → Connection → String) (rands : Nat → Nat) (network : String)
    (n : Int) (hn : 0 < n)
    (hfail : ∀ k c, op k c = Except.error (errOf k c)) :
    executeWithRetry st heights op rands ⟨some network, some n, none, false⟩ =
      ⟨Except.error (RpcFailure.attemptFailure
          (errOf (n.toNat - 1) (connAt st network rands (n.toNat - 1)))),
       n.toNat, n.toNat⟩ := by
  unfold executeWithRetry retryLoop
  show retryGo st network op rands (n - ((0 : Nat) : Int)).toNat 0 none = _
  have hf : (n - ((0 : Nat) : Int)).toNat = n.toNat := by omega
  rw [hf, retryGo_all_fail st network op rands errOf hfail n.toNat 0 none (by omega)]
  simp

/-- Witness for C4: `maxRetries = 3` with an always-failing operation
yields exactly 3 attempts and the last failure wrapped. -/
def opFail : Nat → Connection → Except String Nat := fun _ _ => Except.error "boom"

/-- Randomness oracle that always draws index 0. -/
def rands0 : Nat → Nat := fun _ => 0

theorem executeWithRetry_exhausts_attempts_witness :
    (0 : Int) < 3 ∧
    executeWithRetry stA heightsB opFail rands0 ⟨some "mainnet-beta", some 3, none, false⟩ =
      ⟨Except.error (RpcFailure.attemptFailure "boom"), 3, 3⟩ :=
  ⟨by decide,
   executeWithRetry_exhausts_attempts stA heightsB opFail (fun _ _ => "boom") rands0
     "mainnet-beta" 3 (by decide) (fun _ _ => rfl)⟩

/-- C6: with a retry budget of at least 2, an operation that fails on
the first attempt and succeeds on the second makes `executeWithRetry`
return the second attempt's success result after exactly 2 attempts —
the first success returns immediately, with no further attempt. -/
theorem executeWithRetry_returns_first_success {T : Type} (st : ManagerState)
    (heights : String → Option Nat) (op : Nat → Connection → Except String T)
    (e1 : Connection → String) (rands : Nat → Nat) (network : String)
    (n : Int) (v : T) (hn : 2 ≤ n)
    (hfail1 : ∀ c, op 0 c = Except.error (e1 c))
    (hsucc2 : ∀ c, op 1 c = Except.ok v) :
    executeWithRetry st heights op rands ⟨some network, some n, none, false⟩ =
      ⟨Except.ok v, 2, 2⟩ := by
  unfold executeWithRetry retryLoop
  show retryGo st network op rands (n - ((0 : Nat) : Int)).toNat 0 none = _
  have hf : (n - ((0 : Nat) : Int)).toNat = n.toNat := by omega
  rw [hf]
  obtain ⟨m, hm⟩ : ∃ m, n.toNat = m + 1 + 1 := ⟨n.toNat - 2, by omega⟩
  rw [hm, retryGo, getConnection_eq_connAt st network rands 0]
  dsimp only
  rw [hfail1 (connAt st network rands 0)]
  dsimp only
  simp only [zero_add]
  rw [retryGo, getConnection_eq_connAt st network rands 1]
  dsimp only
  rw [hsucc2 (connAt st network rands 1)]

/-- Operation that fails on attempt 0 and succeeds from attempt 1 on. -/
def opFlaky : Nat → Connection → Except String Nat := fun k _ =>
  if k = 0 then Except.error "first failure" else Except.ok 42

theorem executeWithRetry_returns_first_success_witness :
    (2 : Int) ≤ 3 ∧
    executeWithRetry stA heightsB opFlaky rands0 ⟨some "mainnet-beta", some 3, none, false⟩ =
      ⟨Except.ok 42, 2, 2⟩ :=
  ⟨by decide,
   executeWithRetry_returns_first_success stA heightsB opFlaky (fun _ => "first failure")
     rands0 "mainnet-beta" 3 42 (by decide) (fun _ => rfl) (fun _ => rfl)⟩

/-- C10: with a non-positive retry budget the `while` loop body never
runs: no endpoint is selected, the operation is never invoked, and the
call fails with the generic `RPC call failed after multiple retries`
error (no failure was ever recorded, so `lastError` is still null). -/
theorem executeWithRetry_nonpositive_retries {T : Type} (st : ManagerState)
    (heights : String → Option Nat) (op : Nat → Connection → Except String T)
    (rands : Nat → Nat) (network : String) (n : Int) (hn : n ≤ 0) :
    executeWithRetry st heights op rands ⟨some network, some n, none, false⟩ =
      ⟨Except.error RpcFailure.genericRetryFailure, 0, 0⟩ := by
  unfold executeWithRetry retryLoop
  show retryGo st network op rands (n - ((0 : Nat) : Int)).toNat 0 none = _
  have hf : (n - ((0 : Nat) : Int)).toNat = 0 := by omega
  rw [hf, retryGo]

theorem executeWithRetry_nonpositive_retries_witness :
    (-2 : Int) ≤ 0 ∧
    executeWithRetry stA heightsB opFail rands0 ⟨some "mainnet-beta", some (-2), none, false⟩ =
      ⟨Except.error RpcFailure.genericRetryFailure, 0, 0⟩ :=
  ⟨by decide,
   executeWithRetry_nonpositive_retries stA heightsB opFail rands0 "mainnet-beta" (-2)
     (by decide)⟩

end SolanaRpc
